import Mathlib

/-!
Verification development for the DistributedClocks/tracing library.

The Go sources embed: the tracing client (`Tracer`, `Trace` in trace.go and
the tracer part of server.go), the tracing server (`ActionRecorder.RecordAction`,
`TracingServer` in server.go) and the ShiViz sink (`shivizLogger`).
The per-node vector clock lives in the external GoVector dependency
(`github.com/DistributedClocks/GoVector`), which is not part of this
repository's sources; its three operations are modelled from the spec
(tick / prepareSend / unpackReceive, spec section 4.1), and the model is
validated against the repository's own test expectations
(TestTokenActions: receive clock `client1:2, client2:1`).
Likewise the server-side `RPCProvider.GetLastVC` / last-known-clock table is
called by `NewTracer` but its implementation is not in the sources; it is
modelled from the spec (sections 4.4 and 6).
-/

namespace Tracing

/-- Node identity: an opaque string (spec section 3). -/
abbrev Identity := String

/-- Vector clock: mapping from identity to counter, embedded as an association
list. Entries are unique by construction (`set` removes shadowed keys);
`get` of an absent key is 0, matching Go map semantics used by GoVector. -/
abbrev VClock := List (Identity × Nat)

namespace VClock

/-- Counter of identity `k` in the clock; 0 when absent. Taking `max` over
duplicate entries makes the function total on all lists while agreeing with
map lookup on the duplicate-free lists the operations build. -/
def get : VClock → Identity → Nat
  | [], _ => 0
  | p :: rest, k => if p.1 = k then max p.2 (get rest k) else get rest k

/-- Map update: store counter `v` for identity `k`. -/
def set (vc : VClock) (k : Identity) (v : Nat) : VClock :=
  (k, v) :: vc.filter (fun p => decide (p.1 ≠ k))

/-- Modelled from the spec: GoVector `LogLocalEvent`/`PrepareSend` clock
advance. `tick(self)`: increment own counter by 1 (spec section 4.1). -/
def tick (vc : VClock) (self : Identity) : VClock :=
  vc.set self (vc.get self + 1)

/-- Modelled from the spec: merge step of `unpackReceive` — for every identity
in `incoming`, set `own[id] = max(own[id], incoming[id])` (spec section 4.1). -/
def merge (own incoming : VClock) : VClock :=
  incoming.foldl (fun acc p => acc.set p.1 (max (acc.get p.1) p.2)) own

/-- Modelled from the spec: GoVector `UnpackReceive` clock update — merge the
incoming snapshot, then tick own counter to record the receive as a distinct
event (spec section 4.1). -/
def unpackReceive (self : Identity) (own incoming : VClock) : VClock :=
  tick (merge own incoming) self

end VClock


/-- Structured JSON value: the action payloads handled by the library
(`json.Marshal` output held as `json.RawMessage`). Only the shapes the
claims exercise are needed: strings, numbers, null and objects. -/
inductive Json where
  | str (s : String)
  | num (n : Nat)
  | jnull
  | obj (fields : List (String × Json))

/-- Double-quote a string, as Go's encoder does for the plain identifiers
appearing in the claims (escaping inside the string is not exercised). -/
def quoteStr (s : String) : String :=
  "\"" ++ s ++ "\""

mutual

/-- Compact JSON rendering, mirroring Go `encoding/json` output. -/
def renderJson : Json → String
  | .str s => quoteStr s
  | .num n => Nat.repr n
  | .jnull => "null"
  | .obj fs => "\x7b" ++ renderFields fs ++ "\x7d"

/-- Comma-separated `"key":value` field list of a JSON object. -/
def renderFields : List (String × Json) → String
  | [] => ""
  | [(k, v)] => quoteStr k ++ ":" ++ renderJson v
  | (k, v) :: rest => quoteStr k ++ ":" ++ renderJson v ++ "," ++ renderFields rest

end

/-- Insert a clock entry into a key-sorted list (Go's JSON encoder emits map
keys in sorted order). -/
def insertSorted (p : Identity × Nat) : List (Identity × Nat) → List (Identity × Nat)
  | [] => [p]
  | q :: rest => if q.1 < p.1 then q :: insertSorted p rest else p :: q :: rest

/-- Clock entries sorted by identity. -/
def sortByKey (l : List (Identity × Nat)) : List (Identity × Nat) :=
  l.foldr insertSorted []

/-- Vector clock rendered as a compact JSON object, as Go `encoding/json`
marshals a `map[string]uint64` (keys sorted). -/
def renderVCJson (vc : VClock) : String :=
  "\x7b" ++ String.intercalate ","
    ((sortByKey vc).map (fun p => quoteStr p.1 ++ ":" ++ Nat.repr p.2)) ++ "\x7d"

/-- Modelled from the spec: GoVector `vclock.ReturnVCString` (external
dependency), used by the ShiViz sink; a JSON object of the clock entries
with a comma-space separator (Go map iteration order modelled as sorted). -/
def vcString (vc : VClock) : String :=
  "\x7b" ++ String.intercalate ", "
    ((sortByKey vc).map (fun p => quoteStr p.1 ++ ":" ++ Nat.repr p.2)) ++ "\x7d"

/-- Atom of the token wire alphabet. Tokens in Go are opaque byte strings
(msgpack); the byte level is modelled as a flat list over a string/number
alphabet so that the framing and the exact round-trip are still real. -/
inductive WireAtom where
  | nat (v : Nat)
  | str (s : Identity)
deriving DecidableEq

/-- TracingToken: the opaque flat wire form carried inside application
messages (Go: `type TracingToken []byte`). -/
abbrev TracingToken := List WireAtom

/-- Decoded content of a token: a clock snapshot plus the trace ID payload,
per spec sections 2 and 6 (GoVector `PrepareSend` packs exactly these). -/
structure TokenData where
  clock : VClock
  payload : Nat

/-- Flatten clock entries onto the wire. -/
def encodeVC : VClock → List WireAtom
  | [] => []
  | (k, v) :: rest => .str k :: .nat v :: encodeVC rest

/-- Modelled from the spec: the GoVector msgpack encoding of a token
(external dependency), as a length-prefixed clock followed by the payload. -/
def encodeToken (td : TokenData) : TracingToken :=
  .nat td.clock.length :: (encodeVC td.clock ++ [.nat td.payload])

/-- Parse `n` clock entries off the wire, returning the rest. -/
def decodeVC : Nat → List WireAtom → Option (VClock × List WireAtom)
  | 0, rest => some ([], rest)
  | n + 1, .str k :: .nat v :: rest =>
    (decodeVC n rest).map (fun p => ((k, v) :: p.1, p.2))
  | _ + 1, _ => none

/-- Modelled from the spec: token decoding as performed inside GoVector
`UnpackReceive`; fails on malformed tokens. -/
def decodeToken (tok : TracingToken) : Option TokenData :=
  match tok with
  | .nat n :: rest =>
    match decodeVC n rest with
    | some (vc, [.nat payload]) => some ⟨vc, payload⟩
    | _ => none
  | _ => none

/-- Tracer: the per-node tracing client (Go `Tracer` in server.go). The Go
struct's `logger *govec.GoLog` is represented by its current vector clock;
the rpc client, secret and shouldPrint flag carry no causal state. -/
structure Tracer where
  identity : Identity
  clock : VClock

/-- Trace handle: `type Trace struct { ID uint64; Tracer *Tracer }`. The
owning tracer is passed explicitly to each operation. -/
structure Trace where
  ID : Nat

/-- RecordAction RPC argument (Go `RecordActionArg` in server.go): the
`Record []byte` marshaled payload is held as structured JSON. -/
structure RecordActionArg where
  tracerIdentity : Identity
  traceID : Nat
  recordName : String
  record : Json
  vectorClock : VClock

/-- Body of a GenerateTokenTrace/ReceiveTokenTrace record: Go marshals the
`Token TracingToken` field ([]byte, base64 in JSON); rendered opaquely. -/
def tokenBody (tok : TracingToken) : Json :=
  .obj [("Token", .str (String.intercalate ","
    (tok.map (fun a => match a with | .nat v => Nat.repr v | .str s => s))))]

/-- Trace.RecordAction (trace.go:22-24 with tracer.recordAction,
server.go:490-513): tick the clock via `LogLocalEvent` (isLocalEvent=true)
and send the record under this trace's ID, carrying `GetCurrentVC`.
The Go type-name reflection for the tag and `json.Marshal` for the body are
external collaborators: the tag and the marshaled body are taken as inputs. -/
def Trace.RecordAction (tr : Tracer) (t : Trace) (tag : String) (body : Json) :
    Tracer × RecordActionArg :=
  let c := VClock.tick tr.clock tr.identity
  (⟨tr.identity, c⟩, ⟨tr.identity, t.ID, tag, body, c⟩)

/-- Trace.GenerateToken (trace.go:35-40): `PrepareSend` ticks the clock and
packs (clock snapshot, trace ID) into the token; then the GenerateTokenTrace
record is sent with isLocalEvent=false, carrying the post-tick clock. -/
def Trace.GenerateToken (tr : Tracer) (t : Trace) :
    Tracer × TracingToken × RecordActionArg :=
  let c := VClock.tick tr.clock tr.identity
  let tok := encodeToken ⟨c, t.ID⟩
  (⟨tr.identity, c⟩, tok,
   ⟨tr.identity, t.ID, "GenerateTokenTrace", tokenBody tok, c⟩)

/-- Tracer.ReceiveToken (server.go:522-536): `UnpackReceive` decodes the
token, merges its clock and ticks; the new trace takes the decoded trace ID,
and the ReceiveTokenTrace record is sent with isLocalEvent=false, carrying
the post-merge clock. Fails on a token that does not decode. -/
def Tracer.ReceiveToken (tr : Tracer) (tok : TracingToken) :
    Option (Tracer × Trace × RecordActionArg) :=
  (decodeToken tok).map (fun td =>
    let c := VClock.unpackReceive tr.identity tr.clock td.clock
    (⟨tr.identity, c⟩, ⟨td.payload⟩,
     ⟨tr.identity, td.payload, "ReceiveTokenTrace", tokenBody tok, c⟩))

/-- Go `math/rand` Int63 contract (`rand.go`: `int64(rng.Uint64() & rngMask)`
with `rngMask = 1<<63 - 1`): the generator's 64-bit draw truncated to the
non-negative int64 range. -/
def int63 (raw : Nat) : Nat :=
  raw % 2 ^ 63

/-- Tracer.CreateTrace (server.go:440-451): draw a trace ID from the seeded
generator via Int63, build the trace handle, and record a CreateTrace action
(empty struct, marshals to the empty JSON object) under that ID. -/
def Tracer.CreateTrace (tr : Tracer) (raw : Nat) :
    Tracer × Trace × RecordActionArg :=
  let t : Trace := ⟨int63 raw⟩
  let p := Trace.RecordAction tr t "CreateTrace" (Json.obj [])
  (p.1, t, p.2)

/-- Server-side wrapped record (Go `TraceRecord` in server.go:165-171):
exactly the fields TracerIdentity, TraceID, Tag, Body, VectorClock. -/
structure TraceRecord where
  tracerIdentity : Identity
  traceID : Nat
  tag : String
  body : Json
  vectorClock : VClock

/-- Wrapping done by ActionRecorder.RecordAction (server.go:178-184). -/
def wrapRecord (a : RecordActionArg) : TraceRecord :=
  ⟨a.tracerIdentity, a.traceID, a.recordName, a.record, a.vectorClock⟩

/-- The fixed ShiViz header regex (shiviz.go: `var header = ...`). -/
def shivizHeader : String :=
  "(?<host>\\S*) (?<clock>\x7b.*\x7d)\\n(?<event>.*)"

/-- First line per record in the ShiViz sink (shivizLogger.log):
identity, space, the clock as a JSON object. -/
def shivLine1 (r : TraceRecord) : String :=
  r.tracerIdentity ++ " " ++ vcString r.vectorClock

/-- Second line per record in the ShiViz sink (shivizLogger.log):
trace ID in decimal, the tag, and the body JSON, space-separated. -/
def shivLine2 (r : TraceRecord) : String :=
  Nat.repr r.traceID ++ " " ++ r.tag ++ " " ++ renderJson r.body

/-- Error of the modelled remote lookup (spec section 6: `GetLastVC`
fails with NotFound if identity unseen). -/
inductive RPCError where
  | notFound
deriving DecidableEq

/-- Server state: both sinks as line/record sequences, plus the
last-known-clock table. The sinks are from server.go Open/RecordAction and
shiviz.go; the table is modelled from the spec (sections 3 and 4.4: server
resident, `identity -> most recent clock snapshot seen`, updated on every
accepted record, never pruned). Overwriting conses the new entry; lookup
takes the most recent one. -/
structure ServerState where
  jsonSink : List TraceRecord
  shivizSink : List String
  lastVC : List (Identity × VClock)

/-- Server state right after Open: empty sinks except for the ShiViz header
line and the blank line, written once by newShivizLogger (shiviz.go:16-21). -/
def initServer : ServerState :=
  ⟨[], [shivizHeader, ""], []⟩

/-- Most recent table entry for an identity. -/
def lookupVC : List (Identity × VClock) → Identity → Option VClock
  | [], _ => none
  | (a, vc) :: rest, k => if a = k then some vc else lookupVC rest k

/-- ActionRecorder.RecordAction (server.go:177-192): wrap the argument and
append it to the JSON sink and to the ShiViz sink; the last-known-clock
table update is modelled from the spec (section 4.4: unconditionally
overwrite the entry for the calling identity with the carried snapshot). -/
def ActionRecorder.RecordAction (s : ServerState) (a : RecordActionArg) : ServerState :=
  let w := wrapRecord a
  ⟨s.jsonSink ++ [w],
   s.shivizSink ++ [shivLine1 w, shivLine2 w],
   (a.tracerIdentity, a.vectorClock) :: s.lastVC⟩

/-- Server handling a sequence of RecordAction calls in arrival order. -/
def TracingServer.run (s : ServerState) (calls : List RecordActionArg) : ServerState :=
  calls.foldl ActionRecorder.RecordAction s

/-- Modelled from the spec: `GetLastVC(identity) -> clockSnapshot | NotFound`
(sections 4.4 and 6); the RPCProvider implementation is not in the sources,
only its caller NewTracer (server.go:410-414). -/
def getLastVC (s : ServerState) (id : Identity) : Except RPCError VClock :=
  match lookupVC s.lastVC id with
  | some vc => .ok vc
  | none => .error .notFound

/-- NewTracer (server.go:400-425): construct the tracer, seeding the clock
from the server's GetLastVC answer when the call succeeds; a failed lookup
is tolerated and the clock starts empty (LogToFile=false, so InitGoVector
performs no initialization tick — validated by TestTracerRejoin). -/
def NewTracer (s : ServerState) (id : Identity) : Tracer :=
  match getLastVC s id with
  | .ok vc => ⟨id, vc⟩
  | .error _ => ⟨id, []⟩

/-- One record rendered as the Go json.Encoder emits it: the five fields in
struct order, compact, the body nested as JSON (not double-escaped). -/
def renderTraceRecord (r : TraceRecord) : String :=
  "\x7b\"TracerIdentity\":" ++ quoteStr r.tracerIdentity ++
  ",\"TraceID\":" ++ Nat.repr r.traceID ++
  ",\"Tag\":" ++ quoteStr r.tag ++
  ",\"Body\":" ++ renderJson r.body ++
  ",\"VectorClock\":" ++ renderVCJson r.vectorClock ++ "\x7d"

/-- The JSON sink as the byte content of the output file: one compact JSON
object per record, each terminated by a newline (Go json.Encoder.Encode). -/
def jsonSinkText (s : ServerState) : String :=
  String.join (s.jsonSink.map (fun r => renderTraceRecord r ++ "\n"))

/-- One event of a tracer's lifetime, as visible through the three
record-emitting entry points. -/
inductive TEvent where
  | localAct (traceID : Nat) (tag : String) (body : Json)
  | genToken (traceID : Nat)
  | recvToken (tok : TracingToken)

/-- One tracer step: the successor tracer plus the record the step emits
(receiving an undecodable token emits nothing and keeps the state). -/
def Tracer.stepEvent (tr : Tracer) : TEvent → Tracer × Option RecordActionArg
  | .localAct tid tag body =>
    let p := Trace.RecordAction tr ⟨tid⟩ tag body
    (p.1, some p.2)
  | .genToken tid =>
    let p := Trace.GenerateToken tr ⟨tid⟩
    (p.1, some p.2.2)
  | .recvToken tok =>
    match Tracer.ReceiveToken tr tok with
    | some o => (o.1, some o.2.2)
    | none => (tr, none)

/-- The records a tracer emits over a sequence of events, in order. -/
def runRecords (tr : Tracer) : List TEvent → List RecordActionArg
  | [] => []
  | e :: es => ((tr.stepEvent e).2.toList) ++ runRecords (tr.stepEvent e).1 es

/-- The tracer after a sequence of events. -/
def runTracer (tr : Tracer) : List TEvent → Tracer
  | [] => tr
  | e :: es => runTracer (tr.stepEvent e).1 es

/-- Outcome of the remote `client.Call` inside tracer.recordAction: success,
or a transport error with its message. -/
inductive CallOutcome where
  | ok
  | err (msg : String)
deriving DecidableEq

/-- What the caller of tracer.recordAction observes (server.go:490-513):
the local log lines produced, whether an error reaches the caller, how many
remote call attempts were made, and whether the record was delivered. -/
structure RecordSendResult where
  loggedErrors : List String
  callerError : Option String
  callsMade : Nat
  delivered : Bool

/-- Error flow of tracer.recordAction (server.go:490-513), control flow kept
faithful: a `json.Marshal` failure is passed to `log.Print` and execution
continues to the remote call; a remote call failure is passed to `log.Print`;
the function returns no value, so neither error reaches the caller, and the
call is attempted exactly once. -/
def Tracer.recordActionClient (marshal : Except String Json) (call : CallOutcome) :
    RecordSendResult :=
  let logs1 := match marshal with
    | .ok _ => []
    | .error msg => ["error marshaling record: " ++ msg]
  let logs2 := match call with
    | .ok => []
    | .err msg => ["error recording action to remote: " ++ msg]
  ⟨logs1 ++ logs2, none, 1, match call with | .ok => true | .err _ => false⟩

/-- Scenario of claim C8 (mirrors TestOneRecord): a server with empty secret
is opened, a fresh tracer "client1" is built against it, calls CreateTrace
(drawing `raw` from the ID generator) and then records TestAction(Foo:"foo")
on the trace; the server handles both calls in order. -/
def c8Scenario (raw : Nat) : ServerState :=
  let tr0 := NewTracer initServer "client1"
  let step1 := Tracer.CreateTrace tr0 raw
  let s1 := ActionRecorder.RecordAction initServer step1.2.2
  let step2 := Trace.RecordAction step1.1 step1.2.1 "TestAction"
    (Json.obj [("Foo", Json.str "foo")])
  ActionRecorder.RecordAction s1 step2.2

namespace VClock

theorem get_nil (k : Identity) : get [] k = 0 := rfl

theorem get_cons (p : Identity × Nat) (rest : VClock) (k : Identity) :
    get (p :: rest) k = if p.1 = k then max p.2 (get rest k) else get rest k := rfl

theorem get_filter_self (vc : VClock) (k : Identity) :
    get (vc.filter (fun p => !decide (p.1 = k))) k = 0 := by
  induction vc with
  | nil => rfl
  | cons p rest ih =>
    by_cases h : p.1 = k
    · simp [List.filter_cons, h, ih]
    · simp [List.filter_cons, h, get_cons, ih]

theorem get_filter_other (vc : VClock) (k k' : Identity) (h : k' ≠ k) :
    get (vc.filter (fun p => !decide (p.1 = k))) k' = get vc k' := by
  induction vc with
  | nil => rfl
  | cons p rest ih =>
    by_cases hp : p.1 = k
    · have hpk : p.1 ≠ k' := by simpa [hp] using h.symm
      have hkk : k ≠ k' := h.symm
      simp [List.filter_cons, hp, get_cons, hpk, hkk, ih]
    · simp [List.filter_cons, hp, get_cons, ih]

theorem get_set_self (vc : VClock) (k : Identity) (v : Nat) :
    get (vc.set k v) k = v := by
  simp [set, get_cons, ne_eq, get_filter_self]

theorem get_set_other (vc : VClock) (k k' : Identity) (v : Nat) (h : k' ≠ k) :
    get (vc.set k v) k' = get vc k' := by
  have hkk : k ≠ k' := h.symm
  simp [set, get_cons, hkk, ne_eq, get_filter_other vc k k' h]

theorem get_tick_self (vc : VClock) (self : Identity) :
    get (tick vc self) self = get vc self + 1 := by
  simp [tick, get_set_self]

theorem get_tick_other (vc : VClock) (self k : Identity) (h : k ≠ self) :
    get (tick vc self) k = get vc k := by
  simp [tick, get_set_other vc self k _ h]

theorem get_tick_ge (vc : VClock) (self k : Identity) :
    get vc k ≤ get (tick vc self) k := by
  by_cases h : k = self
  · subst h; rw [get_tick_self]; omega
  · rw [get_tick_other vc self k h]

theorem get_merge (incoming : VClock) (own : VClock) (k : Identity) :
    get (merge own incoming) k = max (get own k) (get incoming k) := by
  induction incoming generalizing own with
  | nil => simp [merge, get_nil]
  | cons p rest ih =>
    rw [merge, List.foldl_cons]
    have step : (merge (own.set p.1 (max (get own p.1) p.2)) rest) =
        (rest.foldl (fun acc q => acc.set q.1 (max (acc.get q.1) q.2))
          (own.set p.1 (max (get own p.1) p.2))) := rfl
    rw [← step, ih]
    by_cases h : p.1 = k
    · subst h
      rw [get_set_self, get_cons, if_pos rfl, max_assoc]
    · rw [get_set_other own p.1 k _ (Ne.symm h), get_cons, if_neg h]

theorem get_unpack_self (self : Identity) (own incoming : VClock) :
    get (unpackReceive self own incoming) self =
      max (get own self) (get incoming self) + 1 := by
  rw [unpackReceive, get_tick_self, get_merge]

theorem get_unpack_other (self k : Identity) (own incoming : VClock) (h : k ≠ self) :
    get (unpackReceive self own incoming) k = max (get own k) (get incoming k) := by
  rw [unpackReceive, get_tick_other _ _ _ h, get_merge]

end VClock

theorem decodeVC_encodeVC (vc : VClock) (tail : List WireAtom) :
    decodeVC vc.length (encodeVC vc ++ tail) = some (vc, tail) := by
  induction vc with
  | nil => rfl
  | cons p rest ih => simpa [encodeVC, decodeVC] using ih

/-- Token round-trip: decoding an encoded token recovers the clock snapshot
and the trace ID exactly (spec section 6). -/
theorem decodeToken_encodeToken (td : TokenData) :
    decodeToken (encodeToken td) = some td := by
  simp [encodeToken, decodeToken, decodeVC_encodeVC]

theorem stepEvent_identity (tr : Tracer) (e : TEvent) :
    ((tr.stepEvent e).1).identity = tr.identity := by
  cases e with
  | localAct tid tag body => rfl
  | genToken tid => rfl
  | recvToken tok =>
    cases hd : decodeToken tok <;>
      simp [Tracer.stepEvent, Tracer.ReceiveToken, hd]

theorem stepEvent_clock_mono (tr : Tracer) (e : TEvent) (k : Identity) :
    tr.clock.get k ≤ ((tr.stepEvent e).1).clock.get k := by
  cases e with
  | localAct tid tag body =>
    simpa [Tracer.stepEvent, Trace.RecordAction] using
      VClock.get_tick_ge tr.clock tr.identity k
  | genToken tid =>
    simpa [Tracer.stepEvent, Trace.GenerateToken] using
      VClock.get_tick_ge tr.clock tr.identity k
  | recvToken tok =>
    cases hd : decodeToken tok with
    | none => simp [Tracer.stepEvent, Tracer.ReceiveToken, hd]
    | some td =>
      simp only [Tracer.stepEvent, Tracer.ReceiveToken, hd, Option.map_some']
      by_cases hk : k = tr.identity
      · subst hk
        rw [VClock.get_unpack_self]
        omega
      · rw [VClock.get_unpack_other _ _ _ _ hk]
        omega

theorem stepEvent_emit (tr : Tracer) (e : TEvent) (r : RecordActionArg)
    (h : (tr.stepEvent e).2 = some r) :
    r.vectorClock = ((tr.stepEvent e).1).clock ∧ r.tracerIdentity = tr.identity := by
  cases e with
  | localAct tid tag body =>
    simp only [Tracer.stepEvent, Option.some_inj] at h
    subst h; exact ⟨rfl, rfl⟩
  | genToken tid =>
    simp only [Tracer.stepEvent, Option.some_inj] at h
    subst h; exact ⟨rfl, rfl⟩
  | recvToken tok =>
    cases hd : decodeToken tok with
    | none => simp [Tracer.stepEvent, Tracer.ReceiveToken, hd] at h
    | some td =>
      simp only [Tracer.stepEvent, Tracer.ReceiveToken, hd, Option.map_some',
        Option.some_inj] at h
      subst h
      simp [Tracer.stepEvent, Tracer.ReceiveToken, hd]

theorem stepEvent_emit_strict (tr : Tracer) (e : TEvent) (r : RecordActionArg)
    (h : (tr.stepEvent e).2 = some r) :
    tr.clock.get tr.identity < r.vectorClock.get tr.identity := by
  rw [(stepEvent_emit tr e r h).1]
  cases e with
  | localAct tid tag body =>
    simp [Tracer.stepEvent, Trace.RecordAction, VClock.get_tick_self]
  | genToken tid =>
    simp [Tracer.stepEvent, Trace.GenerateToken, VClock.get_tick_self]
  | recvToken tok =>
    cases hd : decodeToken tok with
    | none => simp [Tracer.stepEvent, Tracer.ReceiveToken, hd] at h
    | some td =>
      simp only [Tracer.stepEvent, Tracer.ReceiveToken, hd, Option.map_some']
      rw [VClock.get_unpack_self]
      omega

theorem stepEvent_none (tr : Tracer) (e : TEvent)
    (h : (tr.stepEvent e).2 = none) : (tr.stepEvent e).1 = tr := by
  cases e with
  | localAct tid tag body => simp [Tracer.stepEvent] at h
  | genToken tid => simp [Tracer.stepEvent] at h
  | recvToken tok =>
    cases hd : decodeToken tok with
    | none => simp [Tracer.stepEvent, Tracer.ReceiveToken, hd]
    | some td => simp [Tracer.stepEvent, Tracer.ReceiveToken, hd] at h

theorem runTracer_identity (es : List TEvent) (tr : Tracer) :
    (runTracer tr es).identity = tr.identity := by
  induction es generalizing tr with
  | nil => rfl
  | cons e es ih => rw [runTracer, ih, stepEvent_identity]

theorem runTracer_clock_mono (es : List TEvent) (tr : Tracer) (k : Identity) :
    tr.clock.get k ≤ (runTracer tr es).clock.get k := by
  induction es generalizing tr with
  | nil => exact Nat.le_refl _
  | cons e es ih =>
    rw [runTracer]
    exact Nat.le_trans (stepEvent_clock_mono tr e k) (ih _)

theorem runRecords_identity (es : List TEvent) (tr : Tracer) (r : RecordActionArg)
    (h : r ∈ runRecords tr es) : r.tracerIdentity = tr.identity := by
  induction es generalizing tr with
  | nil => simp [runRecords] at h
  | cons e es ih =>
    rw [runRecords] at h
    rcases List.mem_append.mp h with h1 | h2
    · cases hs : (tr.stepEvent e).2 with
      | none => rw [hs] at h1; simp at h1
      | some r0 =>
        rw [hs] at h1
        simp only [Option.toList_some, List.mem_singleton] at h1
        subst h1
        exact (stepEvent_emit tr e r hs).2
    · rw [ih _ h2, stepEvent_identity]

theorem runRecords_vc_le (es : List TEvent) (tr : Tracer) (r : RecordActionArg)
    (k : Identity) (h : r ∈ runRecords tr es) :
    r.vectorClock.get k ≤ (runTracer tr es).clock.get k := by
  induction es generalizing tr with
  | nil => simp [runRecords] at h
  | cons e es ih =>
    rw [runRecords] at h
    rw [runTracer]
    rcases List.mem_append.mp h with h1 | h2
    · cases hs : (tr.stepEvent e).2 with
      | none => rw [hs] at h1; simp at h1
      | some r0 =>
        rw [hs] at h1
        simp only [Option.toList_some, List.mem_singleton] at h1
        subst h1
        rw [(stepEvent_emit tr e r hs).1]
        exact runTracer_clock_mono es _ k
    · exact ih _ h2

theorem runRecords_nil_tracer (es : List TEvent) (tr : Tracer)
    (h : runRecords tr es = []) : runTracer tr es = tr := by
  induction es generalizing tr with
  | nil => rfl
  | cons e es ih =>
    rw [runRecords] at h
    rcases List.append_eq_nil.mp h with ⟨h1, h2⟩
    cases hs : (tr.stepEvent e).2 with
    | some r0 => rw [hs] at h1; simp at h1
    | none =>
      have hne := stepEvent_none tr e hs
      rw [runTracer, hne]
      rw [hne] at h2
      exact ih _ h2

theorem runRecords_getLast (es : List TEvent) (tr : Tracer) (r : RecordActionArg)
    (h : (runRecords tr es).getLast? = some r) :
    r.vectorClock = (runTracer tr es).clock := by
  induction es generalizing tr with
  | nil => simp [runRecords] at h
  | cons e es ih =>
    rw [runRecords] at h
    rw [runTracer]
    cases hs : (tr.stepEvent e).2 with
    | none =>
      rw [hs] at h
      simp only [Option.toList_none, List.nil_append] at h
      exact ih _ h
    | some r0 =>
      rw [hs] at h
      simp only [Option.toList_some, List.singleton_append] at h
      cases hrest : runRecords (tr.stepEvent e).1 es with
      | nil =>
        rw [hrest] at h
        simp only [List.getLast?_singleton, Option.some_inj] at h
        subst h
        rw [runRecords_nil_tracer es _ hrest]
        exact (stepEvent_emit tr e r0 hs).1
      | cons x xs =>
        rw [hrest, List.getLast?_cons_cons, ← hrest] at h
        exact ih _ h

theorem run_jsonSink (calls : List RecordActionArg) (s : ServerState) :
    (TracingServer.run s calls).jsonSink = s.jsonSink ++ calls.map wrapRecord := by
  induction calls generalizing s with
  | nil => simp [TracingServer.run]
  | cons c rest ih =>
    rw [TracingServer.run, List.foldl_cons]
    rw [show List.foldl ActionRecorder.RecordAction (ActionRecorder.RecordAction s c) rest =
      TracingServer.run (ActionRecorder.RecordAction s c) rest from rfl]
    rw [ih]
    simp [ActionRecorder.RecordAction]

theorem run_shivizSink (calls : List RecordActionArg) (s : ServerState) :
    (TracingServer.run s calls).shivizSink =
      s.shivizSink ++ calls.flatMap
        (fun a => [shivLine1 (wrapRecord a), shivLine2 (wrapRecord a)]) := by
  induction calls generalizing s with
  | nil => simp [TracingServer.run]
  | cons c rest ih =>
    rw [TracingServer.run, List.foldl_cons]
    rw [show List.foldl ActionRecorder.RecordAction (ActionRecorder.RecordAction s c) rest =
      TracingServer.run (ActionRecorder.RecordAction s c) rest from rfl]
    rw [ih]
    simp [ActionRecorder.RecordAction]

theorem run_lastVC (calls : List RecordActionArg) (s : ServerState) (k : Identity) :
    lookupVC (TracingServer.run s calls).lastVC k =
      match calls.reverse.find? (fun a => decide (a.tracerIdentity = k)) with
      | some a => some a.vectorClock
      | none => lookupVC s.lastVC k := by
  induction calls generalizing s with
  | nil => simp [TracingServer.run]
  | cons c rest ih =>
    rw [TracingServer.run, List.foldl_cons]
    rw [show List.foldl ActionRecorder.RecordAction (ActionRecorder.RecordAction s c) rest =
      TracingServer.run (ActionRecorder.RecordAction s c) rest from rfl]
    rw [ih]
    rw [List.reverse_cons]
    cases hf : rest.reverse.find? (fun a => decide (a.tracerIdentity = k)) with
    | some a => simp [List.find?_append, hf]
    | none =>
      by_cases hc : c.tracerIdentity = k
      · simp [List.find?_append, hf, List.find?, hc, ActionRecorder.RecordAction, lookupVC]
      · simp [List.find?_append, hf, List.find?, hc, ActionRecorder.RecordAction, lookupVC]

theorem find?_all_pos (l : List RecordActionArg) (k : Identity)
    (h : ∀ a ∈ l, a.tracerIdentity = k) :
    l.find? (fun a => decide (a.tracerIdentity = k)) = l.head? := by
  cases l with
  | nil => rfl
  | cons a rest =>
    have ha := h a (List.mem_cons_self a rest)
    simp [List.find?, ha]

theorem runRecords_head_strict (es : List TEvent) (tr : Tracer) (r : RecordActionArg)
    (h : (runRecords tr es).head? = some r) :
    tr.clock.get tr.identity < r.vectorClock.get tr.identity ∧
      ∀ k, tr.clock.get k ≤ r.vectorClock.get k := by
  induction es generalizing tr with
  | nil => simp [runRecords] at h
  | cons e es ih =>
    rw [runRecords] at h
    cases hs : (tr.stepEvent e).2 with
    | some r0 =>
      rw [hs] at h
      simp only [Option.toList_some, List.singleton_append, List.head?_cons,
        Option.some_inj] at h
      subst h
      refine ⟨stepEvent_emit_strict tr e r0 hs, fun k => ?_⟩
      rw [(stepEvent_emit tr e r0 hs).1]
      exact stepEvent_clock_mono tr e k
    | none =>
      rw [hs] at h
      simp only [Option.toList_none, List.nil_append] at h
      have hne := stepEvent_none tr e hs
      rw [hne] at h
      exact ih _ h

theorem runRecords_chain (I : Identity) (es : List TEvent) (tr : Tracer)
    (hid : tr.identity = I) :
    List.Chain' (fun r r' : RecordActionArg =>
      r.vectorClock.get I < r'.vectorClock.get I ∧
      ∀ k, k ≠ I → r.vectorClock.get k ≤ r'.vectorClock.get k)
      (runRecords tr es) := by
  induction es generalizing tr with
  | nil => simp [runRecords]
  | cons e es ih =>
    rw [runRecords]
    cases hs : (tr.stepEvent e).2 with
    | none =>
      simp only [Option.toList_none, List.nil_append]
      exact ih _ (by rw [stepEvent_identity, hid])
    | some r0 =>
      simp only [Option.toList_some, List.singleton_append]
      rw [List.chain'_cons']
      constructor
      · intro r1 h1
        have hid' : ((tr.stepEvent e).1).identity = I := by rw [stepEvent_identity, hid]
        have hh := runRecords_head_strict es (tr.stepEvent e).1 r1 h1
        have hvc := (stepEvent_emit tr e r0 hs).1
        constructor
        · rw [hvc]
          rw [hid'] at hh
          exact hh.1
        · intro k _
          rw [hvc]
          exact hh.2 k
      · exact ih _ (by rw [stepEvent_identity, hid])

/-- Claim C2: a Trace created by ReceiveToken has the same ID as the Trace
whose GenerateToken produced the consumed Token — the trace ID round-trips
exactly through the token encode/decode, so sender and receiver share one
Trace ID. -/
theorem c2_trace_continuity (trA trB : Tracer) (t : Trace) :
    (Tracer.ReceiveToken trB (Trace.GenerateToken trA t).2.1).map
      (fun o => o.2.1.ID) = some t.ID := by
  simp [Tracer.ReceiveToken, Trace.GenerateToken, decodeToken_encodeToken]

/-- Claim C3: across the sequence of records a Tracer emits (via
Trace.RecordAction, Trace.GenerateToken and Tracer.ReceiveToken), each
record's clock entry for its own identity is strictly greater than the
previous record's, and entries for every other identity never decrease. -/
theorem c3_monotonicity (tr : Tracer) (es : List TEvent) :
    List.Chain' (fun r r' : RecordActionArg =>
      r.vectorClock.get tr.identity < r'.vectorClock.get tr.identity ∧
      ∀ k, k ≠ tr.identity → r.vectorClock.get k ≤ r'.vectorClock.get k)
      (runRecords tr es) :=
  runRecords_chain tr.identity es tr rfl

/-- Claim C5: every accepted server-side RecordAction call appends exactly
one record to the JSON sink and one (two-line) record to the causal-graph
sink, in call-arrival order, and overwrites the last-known-clock table entry
of the calling identity with the carried clock snapshot. -/
theorem c5_record_action (s : ServerState) (a : RecordActionArg) :
    (ActionRecorder.RecordAction s a).jsonSink = s.jsonSink ++ [wrapRecord a] ∧
    (ActionRecorder.RecordAction s a).shivizSink =
      s.shivizSink ++ [shivLine1 (wrapRecord a), shivLine2 (wrapRecord a)] ∧
    lookupVC (ActionRecorder.RecordAction s a).lastVC a.tracerIdentity =
      some a.vectorClock ∧
    ∀ calls : List RecordActionArg,
      (TracingServer.run initServer calls).jsonSink = calls.map wrapRecord := by
  refine ⟨rfl, rfl, ?_, fun calls => ?_⟩
  · simp [ActionRecorder.RecordAction, lookupVC]
  · simpa [initServer] using run_jsonSink calls initServer

/-- Claim C7 counterexample: a transport error during the remote RecordAction
call does not propagate to the caller of the tracing operation — the
operation returns without error, the failure is only written to the local
log (the record is silently dropped). -/
theorem c7_error_counterexample :
    (Tracer.recordActionClient (.ok (Json.obj [])) (.err "connection refused")).callerError
        = none ∧
    (Tracer.recordActionClient (.ok (Json.obj [])) (.err "connection refused")).loggedErrors
        = ["error recording action to remote: connection refused"] ∧
    (Tracer.recordActionClient (.ok (Json.obj [])) (.err "connection refused")).delivered
        = false :=
  ⟨rfl, rfl, rfl⟩

/-- Claim C7 as amended: errors inside the client-side record operation
(marshal failure, transport failure) never reach the caller; the operation
makes exactly one call attempt (no retry, no queueing), logs each error
locally, and a transport failure silently drops the record. -/
theorem c7_error_amended (marshal : Except String Json) (call : CallOutcome) :
    (Tracer.recordActionClient marshal call).callerError = none ∧
    (Tracer.recordActionClient marshal call).callsMade = 1 ∧
    (Tracer.recordActionClient marshal call).loggedErrors =
      (match marshal with
        | .ok _ => []
        | .error msg => ["error marshaling record: " ++ msg]) ++
      (match call with
        | .ok => []
        | .err msg => ["error recording action to remote: " ++ msg]) ∧
    (Tracer.recordActionClient marshal call).delivered =
      (match call with | .ok => true | .err _ => false) :=
  ⟨rfl, rfl, rfl, rfl⟩

/-- Claim C8: in the empty-secret scenario where node client1 calls
CreateTrace and then records TestAction(Foo:"foo"), the JSON sink holds
exactly two newline-delimited records with tags CreateTrace then TestAction,
bodies the empty object then Foo:"foo", the same trace ID in both, clocks
client1:1 then client1:2, each record carrying exactly the fields
TracerIdentity, TraceID, Tag, Body, VectorClock with the body as nested
JSON; the rendered file content is checked bit-exactly at draw 41. -/
theorem c8_sink_exactness (raw : Nat) :
    (c8Scenario raw).jsonSink =
      [⟨"client1", raw % 2 ^ 63, "CreateTrace", Json.obj [], [("client1", 1)]⟩,
       ⟨"client1", raw % 2 ^ 63, "TestAction", Json.obj [("Foo", Json.str "foo")],
        [("client1", 2)]⟩] ∧
    jsonSinkText (c8Scenario raw) =
      (renderTraceRecord ⟨"client1", raw % 2 ^ 63, "CreateTrace", Json.obj [],
        [("client1", 1)]⟩ ++ "\n") ++
      (renderTraceRecord ⟨"client1", raw % 2 ^ 63, "TestAction",
        Json.obj [("Foo", Json.str "foo")], [("client1", 2)]⟩ ++ "\n") ∧
    jsonSinkText (c8Scenario 41) =
      "\x7b\"TracerIdentity\":\"client1\",\"TraceID\":41,\"Tag\":\"CreateTrace\",\"Body\":\x7b\x7d,\"VectorClock\":\x7b\"client1\":1\x7d\x7d\n\x7b\"TracerIdentity\":\"client1\",\"TraceID\":41,\"Tag\":\"TestAction\",\"Body\":\x7b\"Foo\":\"foo\"\x7d,\"VectorClock\":\x7b\"client1\":2\x7d\x7d\n" :=
  ⟨rfl, rfl, rfl⟩

/-- Claim C9: the causal-graph sink starts with the fixed header line and one
blank line, written exactly once at sink creation; thereafter every logged
record contributes exactly two lines — the identity followed by the clock as
a JSON object, then the trace ID, the tag and the body as JSON. -/
theorem c9_shiviz_sink (calls : List RecordActionArg) :
    initServer.shivizSink = ["(?<host>\\S*) (?<clock>\x7b.*\x7d)\\n(?<event>.*)", ""] ∧
    (TracingServer.run initServer calls).shivizSink =
      "(?<host>\\S*) (?<clock>\x7b.*\x7d)\\n(?<event>.*)" :: "" ::
        calls.flatMap (fun a =>
          [a.tracerIdentity ++ " " ++ vcString a.vectorClock,
           Nat.repr a.traceID ++ " " ++ a.recordName ++ " " ++ renderJson a.record]) := by
  refine ⟨rfl, ?_⟩
  rw [run_shivizSink]
  simp [initServer, shivizHeader, shivLine1, shivLine2, wrapRecord]

/-- Claim C10 counterexample: CreateTrace trace IDs do not range over the
full 64-bit space — no generator draw can yield the ID 2^63, because the Go
code takes the ID from rand.Int63, whose values are 63-bit. -/
theorem c10_create_trace_counterexample :
    ¬ ∃ (tr : Tracer) (raw : Nat), ((Tracer.CreateTrace tr raw).2.1).ID = 2 ^ 63 := by
  rintro ⟨tr, raw, h⟩
  have h2 : raw % 2 ^ 63 = 2 ^ 63 := h
  have h3 : raw % 2 ^ 63 < 2 ^ 63 := Nat.mod_lt _ (by norm_num)
  omega

/-- Claim C1 counterexample: after node A generates two tokens on one trace
and node B consumes them newest-first, B's receive record for the older
token carries clock entry 2 for A while the token was emitted at A-clock 1 —
so `Cb[A] == Ca[A]` fails for that generate/consume pair as soon as the
receiver has already seen a later clock from the sender. -/
theorem c1_token_dominance_counterexample :
    ((Tracer.ReceiveToken ⟨"B", []⟩
        (Trace.GenerateToken ((Trace.GenerateToken ⟨"A", []⟩ ⟨5⟩).1) ⟨5⟩).2.1).bind
      (fun o => (Tracer.ReceiveToken o.1 (Trace.GenerateToken ⟨"A", []⟩ ⟨5⟩).2.1).map
        (fun o2 => VClock.get o2.2.2.vectorClock "A"))) = some 2 ∧
    VClock.get ((Trace.GenerateToken ⟨"A", []⟩ ⟨5⟩).2.2).vectorClock "A" = 1 :=
  ⟨rfl, rfl⟩

/-- Claim C1 as amended: if node A emits a token at clock Ca and node B
(B distinct from A, and B's entry for A not yet beyond Ca[A] — the token is
causally fresh) consumes that token, the receive record's clock Cb satisfies
`Cb[k] >= Ca[k]` for every identity k, `Cb[A] == Ca[A]`, and `Cb[B]` is
strictly greater than B's own entry immediately before the receive. -/
theorem c1_token_dominance_amended (trA trB : Tracer) (t : Trace) (cb : VClock)
    (hne : trA.identity ≠ trB.identity)
    (hfresh : VClock.get trB.clock trA.identity ≤
      VClock.get ((Trace.GenerateToken trA t).2.2).vectorClock trA.identity)
    (hrecv : (Tracer.ReceiveToken trB (Trace.GenerateToken trA t).2.1).map
      (fun o => o.2.2.vectorClock) = some cb) :
    (∀ k, VClock.get ((Trace.GenerateToken trA t).2.2).vectorClock k ≤ VClock.get cb k) ∧
    VClock.get cb trA.identity =
      VClock.get ((Trace.GenerateToken trA t).2.2).vectorClock trA.identity ∧
    VClock.get trB.clock trB.identity < VClock.get cb trB.identity := by
  have hCa : ((Trace.GenerateToken trA t).2.2).vectorClock =
      VClock.tick trA.clock trA.identity := rfl
  have hb : cb = VClock.unpackReceive trB.identity trB.clock
      (VClock.tick trA.clock trA.identity) := by
    simp [Tracer.ReceiveToken, Trace.GenerateToken, decodeToken_encodeToken] at hrecv
    exact hrecv.symm
  rw [hCa] at hfresh ⊢
  subst hb
  refine ⟨fun k => ?_, ?_, ?_⟩
  · by_cases hk : k = trB.identity
    · subst hk
      rw [VClock.get_unpack_self]
      omega
    · rw [VClock.get_unpack_other _ _ _ _ hk]
      omega
  · rw [VClock.get_unpack_other _ _ _ _ hne]
    omega
  · rw [VClock.get_unpack_self]
    omega

/-- Witness for the amended C1 at a concrete fresh transfer: A (after one
prior event) generates a token on trace 5 and a fresh B consumes it. -/
theorem c1_token_dominance_witness :
    ((⟨"A", [("A", 1)]⟩ : Tracer).identity ≠ (⟨"B", []⟩ : Tracer).identity) ∧
    (VClock.get (⟨"B", []⟩ : Tracer).clock "A" ≤
      VClock.get ((Trace.GenerateToken ⟨"A", [("A", 1)]⟩ ⟨5⟩).2.2).vectorClock "A") ∧
    ((Tracer.ReceiveToken ⟨"B", []⟩ (Trace.GenerateToken ⟨"A", [("A", 1)]⟩ ⟨5⟩).2.1).map
      (fun o => o.2.2.vectorClock) = some [("B", 1), ("A", 2)]) ∧
    ((∀ k, VClock.get ((Trace.GenerateToken ⟨"A", [("A", 1)]⟩ ⟨5⟩).2.2).vectorClock k ≤
        VClock.get [("B", 1), ("A", 2)] k) ∧
     VClock.get [("B", 1), ("A", 2)] "A" =
       VClock.get ((Trace.GenerateToken ⟨"A", [("A", 1)]⟩ ⟨5⟩).2.2).vectorClock "A" ∧
     VClock.get (⟨"B", []⟩ : Tracer).clock "B" < VClock.get [("B", 1), ("A", 2)] "B") :=
  ⟨by decide, by decide, by rfl,
   c1_token_dominance_amended ⟨"A", [("A", 1)]⟩ ⟨"B", []⟩ ⟨5⟩ [("B", 1), ("A", 2)]
     (by decide) (by decide) (by rfl)⟩

/-- Claim C4: after a prior instance of an identity has produced records, a
freshly constructed Tracer for that identity seeds its clock with the last
clock the previous instance produced, and a subsequent tick yields a counter
the server has never seen for that identity; when the GetLastVC lookup
misses, construction still succeeds and the clock starts empty. -/
theorem c4_rejoin (tr : Tracer) (s0 : ServerState) (es : List TEvent)
    (r : RecordActionArg)
    (h0 : ∀ w ∈ s0.jsonSink, w.tracerIdentity ≠ tr.identity)
    (hlast : (runRecords tr es).getLast? = some r) :
    (NewTracer (TracingServer.run s0 (runRecords tr es)) tr.identity).clock =
      r.vectorClock ∧
    r.vectorClock = (runTracer tr es).clock ∧
    (VClock.tick (NewTracer (TracingServer.run s0 (runRecords tr es)) tr.identity).clock
        tr.identity).get tr.identity ∉
      (((TracingServer.run s0 (runRecords tr es)).jsonSink.filter
          (fun w => decide (w.tracerIdentity = tr.identity))).map
        (fun w => w.vectorClock.get tr.identity)) ∧
    ∀ (s : ServerState) (I : Identity),
      getLastVC s I = .error RPCError.notFound → NewTracer s I = ⟨I, []⟩ := by
  have hvc := runRecords_getLast es tr r hlast
  have hid : ∀ a ∈ runRecords tr es, a.tracerIdentity = tr.identity :=
    fun a ha => runRecords_identity es tr a ha
  have hfind : (runRecords tr es).reverse.find?
      (fun a => decide (a.tracerIdentity = tr.identity)) = some r := by
    rw [find?_all_pos _ _ (fun a ha => by
      simp [hid a (List.mem_reverse.mp ha)])]
    rw [List.head?_reverse]
    exact hlast
  have hlook : lookupVC (TracingServer.run s0 (runRecords tr es)).lastVC tr.identity =
      some r.vectorClock := by
    rw [run_lastVC, hfind]
  have hNew : (NewTracer (TracingServer.run s0 (runRecords tr es)) tr.identity).clock =
      r.vectorClock := by
    simp [NewTracer, getLastVC, hlook]
  refine ⟨hNew, hvc, ?_, fun s I hmiss => ?_⟩
  · intro hmem
    rw [hNew] at hmem
    rcases List.mem_map.mp hmem with ⟨w, hwmem, hwval⟩
    rcases List.mem_filter.mp hwmem with ⟨hwsink, hwid⟩
    rw [run_jsonSink] at hwsink
    rcases List.mem_append.mp hwsink with h1 | h2
    · exact h0 w h1 (of_decide_eq_true hwid)
    · rcases List.mem_map.mp h2 with ⟨a, hamem, haw⟩
      have hle := runRecords_vc_le es tr a tr.identity hamem
      rw [← hvc] at hle
      rw [VClock.get_tick_self] at hwval
      subst haw
      simp only [wrapRecord] at hwval
      omega
  · simp [NewTracer, hmiss]

/-- Witness for C4: identity client1 records one action, the server has it,
and the rejoined tracer seeds with its clock. -/
theorem c4_rejoin_witness :
    (∀ w ∈ initServer.jsonSink, w.tracerIdentity ≠ "client1") ∧
    (runRecords ⟨"client1", []⟩
        [TEvent.localAct 7 "TestAction" (Json.obj [])]).getLast? =
      some ⟨"client1", 7, "TestAction", Json.obj [], [("client1", 1)]⟩ ∧
    ((NewTracer (TracingServer.run initServer (runRecords ⟨"client1", []⟩
          [TEvent.localAct 7 "TestAction" (Json.obj [])])) "client1").clock =
        [("client1", 1)] ∧
      ([("client1", 1)] : VClock) =
        (runTracer ⟨"client1", []⟩
          [TEvent.localAct 7 "TestAction" (Json.obj [])]).clock ∧
      (VClock.tick (NewTracer (TracingServer.run initServer
            (runRecords ⟨"client1", []⟩
              [TEvent.localAct 7 "TestAction" (Json.obj [])])) "client1").clock
          "client1").get "client1" ∉
        (((TracingServer.run initServer (runRecords ⟨"client1", []⟩
              [TEvent.localAct 7 "TestAction" (Json.obj [])])).jsonSink.filter
            (fun w => decide (w.tracerIdentity = "client1"))).map
          (fun w => w.vectorClock.get "client1")) ∧
      ∀ (s : ServerState) (I : Identity),
        getLastVC s I = .error RPCError.notFound → NewTracer s I = ⟨I, []⟩) :=
  ⟨fun w hw => absurd hw (List.not_mem_nil w),
   rfl,
   c4_rejoin ⟨"client1", []⟩ initServer [TEvent.localAct 7 "TestAction" (Json.obj [])]
     ⟨"client1", 7, "TestAction", Json.obj [], [("client1", 1)]⟩
     (fun w hw => absurd hw (List.not_mem_nil w)) rfl⟩

/-- Claim C6: a GetLastVC call for an identity the server has never seen
fails with NotFound, and the tracer under construction treats the miss as a
cold start (empty clock, construction succeeds); for a previously seen
identity, GetLastVC returns that identity's most recent clock snapshot. -/
theorem c6_get_last_vc (calls : List RecordActionArg) (I : Identity) :
    (calls.reverse.find? (fun a => decide (a.tracerIdentity = I)) = none →
      getLastVC (TracingServer.run initServer calls) I = .error RPCError.notFound ∧
      NewTracer (TracingServer.run initServer calls) I = ⟨I, []⟩) ∧
    ∀ a, calls.reverse.find? (fun a => decide (a.tracerIdentity = I)) = some a →
      getLastVC (TracingServer.run initServer calls) I = .ok a.vectorClock := by
  constructor
  · intro hnone
    have hlook : lookupVC (TracingServer.run initServer calls).lastVC I = none := by
      rw [run_lastVC, hnone]
      rfl
    constructor
    · simp [getLastVC, hlook]
    · simp [NewTracer, getLastVC, hlook]
  · intro a ha
    have hlook : lookupVC (TracingServer.run initServer calls).lastVC I =
        some a.vectorClock := by
      rw [run_lastVC, ha]
    simp [getLastVC, hlook]

/-- Witness for C6: with one record from client1 on the server, the lookup
for client2 misses (cold start) and the lookup for client1 returns the
recorded clock. -/
theorem c6_get_last_vc_witness :
    (([⟨"client1", 7, "TestAction", Json.obj [], [("client1", 1)]⟩] :
        List RecordActionArg).reverse.find?
        (fun a => decide (a.tracerIdentity = "client2")) = none ∧
      getLastVC (TracingServer.run initServer
          [⟨"client1", 7, "TestAction", Json.obj [], [("client1", 1)]⟩]) "client2" =
        .error RPCError.notFound ∧
      NewTracer (TracingServer.run initServer
          [⟨"client1", 7, "TestAction", Json.obj [], [("client1", 1)]⟩]) "client2" =
        ⟨"client2", []⟩) ∧
    (([⟨"client1", 7, "TestAction", Json.obj [], [("client1", 1)]⟩] :
        List RecordActionArg).reverse.find?
        (fun a => decide (a.tracerIdentity = "client1")) =
      some ⟨"client1", 7, "TestAction", Json.obj [], [("client1", 1)]⟩ ∧
      getLastVC (TracingServer.run initServer
          [⟨"client1", 7, "TestAction", Json.obj [], [("client1", 1)]⟩]) "client1" =
        .ok [("client1", 1)]) := by
  refine ⟨⟨rfl, ?_⟩, rfl, ?_⟩
  · exact (c6_get_last_vc
      [⟨"client1", 7, "TestAction", Json.obj [], [("client1", 1)]⟩] "client2").1 rfl
  · exact (c6_get_last_vc
      [⟨"client1", 7, "TestAction", Json.obj [], [("client1", 1)]⟩] "client1").2
      ⟨"client1", 7, "TestAction", Json.obj [], [("client1", 1)]⟩ rfl

/-- Claim C10 as amended: CreateTrace ticks the clock, draws a fresh trace ID
from the seeded generator's 63-bit output (the non-negative int64 range, not
derived from the clock), emits a CreateTrace record with empty body under
that ID, and returns the trace handle bound to that ID. -/
theorem c10_create_trace_amended (tr : Tracer) (raw : Nat) :
    ((Tracer.CreateTrace tr raw).2.1).ID < 2 ^ 63 ∧
    ((Tracer.CreateTrace tr raw).2.2).recordName = "CreateTrace" ∧
    ((Tracer.CreateTrace tr raw).2.2).record = Json.obj [] ∧
    ((Tracer.CreateTrace tr raw).2.2).traceID = ((Tracer.CreateTrace tr raw).2.1).ID ∧
    ((Tracer.CreateTrace tr raw).2.2).vectorClock = VClock.tick tr.clock tr.identity ∧
    ((Tracer.CreateTrace tr raw).1).clock = VClock.tick tr.clock tr.identity ∧
    ∀ tr2 : Tracer,
      ((Tracer.CreateTrace tr2 raw).2.1).ID = ((Tracer.CreateTrace tr raw).2.1).ID := by
  refine ⟨?_, rfl, rfl, rfl, rfl, rfl, fun tr2 => rfl⟩
  show raw % 2 ^ 63 < 2 ^ 63
  exact Nat.mod_lt _ (by norm_num)

end Tracing
